import Mathlib

/-!
# gin-zap: request logging and error reporting middleware

A shallow embedding of `src/gin-zap.go` (package `ginzap`).

The package is an adapter between two libraries that are not part of the
repository: the gin web framework (`gin.Context`, its response writer and its
error list) and the zap logger.  The handlers of the package are embedded from
the source; the framework operations they call are modelled below, each with a
doc comment that says so.

Conventions of the embedding:

* Go `int` status codes are `Int`; only comparisons are made on them, so no
  wrap-around can occur.
* `c.Next()` is the parameter `next : World → World`: the effect of the rest of
  the handler chain when it returns normally.
* A handler that talks to the logger returns, next to the new world, the list
  of `Event`s it performed, in order.
* The goroutine started by `setupLogging` is outside the embedding.
-/

namespace GinZap

/-! ## Go values and the library functions taken as parameters -/

/-- A Go value held in an empty interface, as far as the package looks at it:
a string, or any other value identified by a token. -/
inductive GoValue where
  | str (s : String)
  | other (token : String)
  deriving DecidableEq, Repr

/-- Modelled from the spec: gin's `Error.Meta` field is declared in the framework,
not under src/.  It is an empty interface; `Error.JSON` distinguishes a nil
value, a struct, a map (given here by its entries, each key as
`key.String()` renders it) and everything else. -/
inductive MetaValue where
  | nil
  | struct (v : GoValue)
  | map (entries : List (String × GoValue))
  | other (v : GoValue)
  deriving DecidableEq, Repr

/-- Modelled from the spec: gin's `ErrorType` is declared in the framework, not
under src/.  It is a uint64 bit mask. -/
abbrev ErrorType := Nat

/-- Modelled from the spec: gin's constant `ErrorTypeAny` (all 64 bits set) is
declared in the framework, not under src/. -/
def ErrorTypeAny : ErrorType := 2 ^ 64 - 1

/-- Modelled from the spec: gin's constant `ErrorTypePrivate` is declared in the
framework, not under src/.  It is the type `c.Error` gives an error. -/
def ErrorTypePrivate : ErrorType := 1

/-- Modelled from the spec: gin's constant `ErrorTypePublic` is declared in the
framework, not under src/. -/
def ErrorTypePublic : ErrorType := 2

/-- Modelled from the spec: gin's `Error` struct is declared in the framework, not
under src/.  `Err` is the message of the wrapped Go error, `Typ` the field
`Type`. -/
structure Error where
  Err : String
  Typ : ErrorType
  Meta : MetaValue
  deriving DecidableEq, Repr

/-- Modelled from the spec: gin's map type `H` is declared in the framework, not
under src/.  Entries are kept in insertion order; the order carries no meaning. -/
abbrev H := List (String × GoValue)

/-- Assignment `h[k] = v` on a Go map. -/
def H.set (h : H) (k : String) (v : GoValue) : H :=
  if h.any (fun p => p.1 == k) then
    h.map (fun p => if p.1 == k then (k, v) else p)
  else
    h ++ [(k, v)]

/-- The JSON form of one error: either the struct held in `Meta`, or an `H` map. -/
inductive ErrorJSON where
  | meta (v : GoValue)
  | h (m : H)
  deriving DecidableEq, Repr

/-- What `errorMsgs.JSON` hands to the renderer when it is not nil: the form of a
single error, or a slice with one form per error. -/
inductive JSONData where
  | one (e : ErrorJSON)
  | many (es : List ErrorJSON)
  deriving DecidableEq, Repr

/-- Functions of Go's standard library whose result is only passed along.
`jsonMarshal` is `json.Marshal` on the data the error reporter renders: the
bytes, or the message of the error it returns (for a value JSON cannot
encode, such as a channel).  `httpWrite` is `Write` of the underlying
`http.ResponseWriter`, given the status that was sent and the chunk: `none`
when the chunk is accepted, or the message of the error when it is refused
(for a status that allows no body, or a broken connection); a refused chunk
is taken to be refused whole.  `sprintV` is the `%v` verb of `fmt` on a `Meta`
value, `durationString` is `time.Duration.String`. -/
structure Lib where
  jsonMarshal : JSONData → Except String String
  httpWrite : Option Int → String → Option String
  sprintV : MetaValue → String
  durationString : Int → String

/-! ## The response writer -/

/-- Modelled from the spec: gin's `responseWriter` is declared in the framework,
not under src/.  `status` and `size` are its fields; `header`, `sentStatus` and
`body` record what reached the underlying `http.ResponseWriter`: the header
map, the status passed to its `WriteHeader`, and the chunks passed to its
`Write`, oldest first. -/
structure ResponseWriter where
  status : Int
  size : Int
  header : List (String × List String)
  sentStatus : Option Int
  body : List String
  deriving DecidableEq, Repr

/-- Modelled from the spec: gin's constant `noWritten` is declared in the
framework, not under src/. -/
def noWritten : Int := -1

/-- Modelled from the spec: gin's `responseWriter.Written` is not under src/; it is
the flag "has the response been written". -/
def ResponseWriter.Written (w : ResponseWriter) : Bool :=
  w.size != noWritten

/-- Modelled from the spec: gin's `responseWriter.Status` is not under src/; it
returns the status currently set. -/
def ResponseWriter.Status (w : ResponseWriter) : Int :=
  w.status

/-- Modelled from the spec: gin's `responseWriter.WriteHeader` is not under src/.
A code that is not positive leaves the status that is already set. -/
def ResponseWriter.WriteHeader (w : ResponseWriter) (code : Int) : ResponseWriter :=
  if code > 0 ∧ w.status ≠ code then
    if w.Written then w else { w with status := code }
  else
    w

/-- Modelled from the spec: gin's `responseWriter.WriteHeaderNow` is not under
src/.  On the first write it sends the status that is set. -/
def ResponseWriter.WriteHeaderNow (w : ResponseWriter) : ResponseWriter :=
  if !w.Written then
    { w with size := 0, sentStatus := some w.status }
  else
    w

/-- Modelled from the spec: gin's `responseWriter.Write` is not under src/.  It
sends the header if that is still to do, passes the chunk to the underlying
writer and adds the number of bytes that writer took to `size`; the second
component is the error the underlying writer returned, if any. -/
def ResponseWriter.Write (lib : Lib) (w : ResponseWriter) (data : String) :
    ResponseWriter × Option String :=
  let w1 := w.WriteHeaderNow
  match lib.httpWrite w1.sentStatus data with
  | none =>
    ({ w1 with body := w1.body ++ [data], size := w1.size + (data.utf8ByteSize : Int) }, none)
  | some err => (w1, some err)

/-- Modelled from the spec: the content type gin's JSON renderer sets is declared
in the framework, not under src/. -/
def jsonContentType : List String := ["application/json; charset=utf-8"]

/-- Modelled from the spec: gin's `writeContentType` is not under src/.  It sets
the Content-Type header unless one is present. -/
def writeContentType (w : ResponseWriter) (value : List String) : ResponseWriter :=
  match w.header.lookup "Content-Type" with
  | some (_ :: _) => w
  | _ => { w with header := ("Content-Type", value) :: w.header.filter (fun p => p.1 != "Content-Type") }

/-- Modelled from the spec: gin's `bodyAllowedForStatus` is not under src/. -/
def bodyAllowedForStatus (status : Int) : Bool :=
  if 100 ≤ status ∧ status ≤ 199 then false
  else if status = 204 then false
  else if status = 304 then false
  else true

/-! ## The request context -/

/-- The part of `http.Request` the logger reads: `Method` and `URL.Path`. -/
structure Request where
  Method : String
  Path : String
  deriving DecidableEq, Repr

/-- Modelled from the spec: gin's `Context` is declared in the framework, not under
src/.  `ClientIP` holds what the method `c.ClientIP()` returns, `index` the
position in the handler chain. -/
structure Context where
  Request : Request
  ClientIP : String
  Writer : ResponseWriter
  Errors : List Error
  index : Int
  deriving DecidableEq, Repr

/-- Modelled from the spec: gin's `Context.Status` is not under src/. -/
def Context.Status (c : Context) (code : Int) : Context :=
  { c with Writer := c.Writer.WriteHeader code }

/-- Modelled from the spec: gin's constant `abortIndex` is declared in the
framework, not under src/. -/
def abortIndex : Int := 63

/-- Modelled from the spec: gin's `Context.Abort` is not under src/. -/
def Context.Abort (c : Context) : Context :=
  { c with index := abortIndex }

/-- Modelled from the spec: gin's `Context.Error` is not under src/, and
`Context.Errors` is the list it appends to; a plain Go error is recorded as a
private error without meta data. -/
def Context.Error (c : Context) (err : String) : Context :=
  { c with Errors := c.Errors ++ [⟨err, ErrorTypePrivate, MetaValue.nil⟩] }

/-- Modelled from the spec: gin's JSON renderer (`render.WriteJSON`) is not under
src/.  It sets the content type, encodes the data and writes the bytes; the
second component is the error of the encoder or of the writer, if any. -/
def WriteJSON (lib : Lib) (w : ResponseWriter) (obj : JSONData) :
    ResponseWriter × Option String :=
  let w1 := writeContentType w jsonContentType
  match lib.jsonMarshal obj with
  | .error err => (w1, some err)
  | .ok jsonBytes => w1.Write lib jsonBytes

/-- Modelled from the spec: gin's `Context.JSON` is not under src/.  It sets the
status through `Status`, then renders the data as JSON into the writer; for a
status that allows no body only the headers are written.  When rendering
fails, the error is appended to the error list and the chain is aborted. -/
def Context.JSON (lib : Lib) (c : Context) (code : Int) (obj : JSONData) : Context :=
  let c1 := c.Status code
  if !bodyAllowedForStatus code then
    { c1 with Writer := (writeContentType c1.Writer jsonContentType).WriteHeaderNow }
  else
    match WriteJSON lib c1.Writer obj with
    | (w2, none) => { c1 with Writer := w2 }
    | (w2, some err) => (Context.Error { c1 with Writer := w2 } err).Abort

/-! ## The error list -/

/-- Modelled from the spec: gin's `Error.IsType` is not under src/. -/
def Error.IsType (msg : Error) (flags : ErrorType) : Bool :=
  decide ((msg.Typ &&& flags) > 0)

/-- Modelled from the spec: gin's `Error.JSON` is not under src/. -/
def Error.JSON (msg : Error) : ErrorJSON :=
  match msg.Meta with
  | .struct v => .meta v
  | m =>
    let jsonData : H :=
      match m with
      | .map entries => entries.foldl (fun acc kv => H.set acc kv.1 kv.2) []
      | .other v => H.set [] "meta" v
      | _ => []
    if jsonData.any (fun p => p.1 == "error") then .h jsonData
    else .h (H.set jsonData "error" (.str msg.Err))

/-- Modelled from the spec: gin's `errorMsgs.ByType` is not under src/.  It is the
type filter of the error reporter. -/
def errorMsgs.ByType (a : List Error) (typ : ErrorType) : List Error :=
  if a.length = 0 then []
  else if typ = ErrorTypeAny then a
  else a.filter (fun msg => msg.IsType typ)

/-- Modelled from the spec: gin's `errorMsgs.JSON` is not under src/.  `none` is
the nil it returns for an empty list. -/
def errorMsgs.JSON (a : List Error) : Option JSONData :=
  match a with
  | [] => none
  | [msg] => some (.one msg.JSON)
  | _ => some (.many (a.map Error.JSON))

/-- The verb `%02d` of `fmt` on a natural number. -/
def pad2 (n : Nat) : String :=
  if n < 10 then "0" ++ toString n else toString n

/-- Modelled from the spec: gin's `errorMsgs.String` is not under src/. -/
def errorMsgs.String (lib : Lib) (a : List Error) : String :=
  if a.length = 0 then ""
  else
    a.enum.foldl
      (fun buffer im =>
        let line := buffer ++ "Error #" ++ pad2 (im.1 + 1) ++ ": " ++ im.2.Err ++ "\n"
        if im.2.Meta ≠ MetaValue.nil then
          line ++ "     Meta: " ++ lib.sprintV im.2.Meta ++ "\n"
        else line)
      ""

/-! ## The world a handler runs in -/

/-- The state a handler acts on: the request context and the wall clock, in
nanoseconds, that `time.Now` reads. -/
structure World where
  c : Context
  now : Int
  deriving DecidableEq, Repr

/-! ## The zap logger -/

/-- The three leveled methods of `zap.Logger` the package calls. -/
inductive Level where
  | info
  | warn
  | error
  deriving DecidableEq, Repr

/-- A zap field: `zap.Int key val` or `zap.String key val`. -/
inductive Field where
  | int (key : String) (val : Int)
  | string (key : String) (val : String)
  deriving DecidableEq, Repr

/-- The key of a field. -/
def Field.key : Field → String
  | .int k _ => k
  | .string k _ => k

/-- One call of `logger.Info`, `logger.Warn` or `logger.Error`. -/
structure Entry where
  level : Level
  msg : String
  fields : List Field
  deriving DecidableEq, Repr

/-- What the logging handler does that can be observed from outside, in order:
a call of `c.Next()`, or a call of the logger. -/
inductive Event where
  | next
  | log (e : Entry)
  deriving DecidableEq, Repr

/-- The entries among a list of events, in order. -/
def entries : List Event → List Entry
  | [] => []
  | .next :: es => entries es
  | .log e :: es => e :: entries es

/-! ## The handlers of the package -/

/-- The handler returned by `ErrorLoggerT(t)`. -/
def ErrorLoggerT (lib : Lib) (t : ErrorType) (next : World → World) (w : World) : World :=
  let w1 := next w
  if !w1.c.Writer.Written then
    let json := errorMsgs.JSON (errorMsgs.ByType w1.c.Errors t)
    match json with
    | some obj => { w1 with c := w1.c.JSON lib (-1) obj }
    | none => w1
  else
    w1

/-- The handler returned by `ErrorLogger()`. -/
def ErrorLogger (lib : Lib) (next : World → World) (w : World) : World :=
  ErrorLoggerT lib ErrorTypeAny next w

/-- The handler returned by `Logger(duration, logger)`.  The duration is only
passed to `setupLogging`, before the handler is built. -/
def Logger (lib : Lib) (next : World → World) (w : World) : World × List Event :=
  let t := w.now
  let w1 := next w
  let latency := w1.now - t
  let clientIP := w1.c.ClientIP
  let method := w1.c.Request.Method
  let statusCode := w1.c.Writer.Status
  let path := w1.c.Request.Path
  if statusCode ≥ 400 ∧ statusCode ≤ 499 then
    (w1, [Event.next, Event.log ⟨Level.warn, "[GIN]",
      [Field.int "statusCode" statusCode,
       Field.string "latency" (lib.durationString latency),
       Field.string "clientIP" clientIP,
       Field.string "method" method,
       Field.string "path" path,
       Field.string "error" (errorMsgs.String lib w1.c.Errors)]⟩])
  else if statusCode ≥ 500 then
    (w1, [Event.next, Event.log ⟨Level.error, "[GIN]",
      [Field.int "statusCode" statusCode,
       Field.string "latency" (lib.durationString latency),
       Field.string "clientIP" clientIP,
       Field.string "method" method,
       Field.string "path" path,
       Field.string "error" (errorMsgs.String lib w1.c.Errors)]⟩])
  else
    (w1, [Event.next, Event.log ⟨Level.info, "[GIN]",
      [Field.int "statusCode" statusCode,
       Field.string "latency" (lib.durationString latency),
       Field.string "clientIP" clientIP,
       Field.string "method" method,
       Field.string "path" path,
       Field.string "error" (errorMsgs.String lib w1.c.Errors)]⟩])

/-! ## Notions the statements use -/

/-- The severity the specification assigns to a status code: warning for 400 to
499, error from 500 on, info otherwise.  Written from the specification, to be
compared with the branch `Logger` takes. -/
def specSeverity (statusCode : Int) : Level :=
  if 400 ≤ statusCode ∧ statusCode ≤ 499 then Level.warn
  else if 500 ≤ statusCode then Level.error
  else Level.info

/-- An error matches the type filter `t` when the filter is `ErrorTypeAny` or the
error's type shares a bit with `t`.  Under `ErrorTypeAny` every error matches,
also one whose type has no bit set. -/
def Matches (t : ErrorType) (e : Error) : Bool :=
  decide (t = ErrorTypeAny) || e.IsType t

/-- The severities of the entries among a list of events, in order. -/
def levels (es : List Event) : List Level :=
  (entries es).map Entry.level

/-- The six fields of a log entry for the world `w1` downstream left, when the
clock read `t` before downstream ran. -/
def expectedFields (lib : Lib) (t : Int) (w1 : World) : List Field :=
  [Field.int "statusCode" w1.c.Writer.Status,
   Field.string "latency" (lib.durationString (w1.now - t)),
   Field.string "clientIP" w1.c.ClientIP,
   Field.string "method" w1.c.Request.Method,
   Field.string "path" w1.c.Request.Path,
   Field.string "error" (errorMsgs.String lib w1.c.Errors)]

/-! ## Sample inputs -/

/-- Whether a Go value is one `json.Marshal` encodes: every string, and every
other value except a channel or a function. -/
def GoValue.encodable : GoValue → Bool
  | .str _ => true
  | .other token => !(token == "chan int" || token == "func()")

/-- Whether every value of the JSON form of an error can be encoded. -/
def ErrorJSON.encodable : ErrorJSON → Bool
  | .meta v => v.encodable
  | .h m => m.all (fun kv => kv.2.encodable)

/-- Sample library functions.  The encoder fails on data that holds a channel
or a function and otherwise returns a fixed text; the underlying writer
refuses a body for the statuses that allow none, as `net/http` does. -/
def sampleLib : Lib where
  jsonMarshal := fun obj =>
    let ok :=
      match obj with
      | .one e => e.encodable
      | .many es => es.all ErrorJSON.encodable
    if ok then .ok "json" else .error "json: unsupported type"
  httpWrite := fun sent _ =>
    match sent with
    | some status =>
      if bodyAllowedForStatus status then none
      else some "http: request method or response status code does not allow body"
    | none => none
  sprintV := fun _ => "meta"
  durationString := fun _ => "1ms"

/-- A fresh response writer, as gin resets it: status 200, nothing written. -/
def freshWriter : ResponseWriter :=
  ⟨200, noWritten, [], none, []⟩

/-- A sample world: a GET request, nothing written, no errors. -/
def sampleWorld : World :=
  ⟨⟨⟨"GET", "/ping"⟩, "10.0.0.1", freshWriter, [], 0⟩, 0⟩

/-- A private error, as `c.Error` records it. -/
def privateError : Error :=
  ⟨"boom", ErrorTypePrivate, MetaValue.nil⟩

/-- A private error whose meta data is a channel, which JSON cannot encode. -/
def chanError : Error :=
  ⟨"boom", ErrorTypePrivate, MetaValue.other (GoValue.other "chan int")⟩

/-- A public error. -/
def publicError : Error :=
  ⟨"bad input", ErrorTypePublic, MetaValue.nil⟩

/-- A downstream chain that sets the status, records the errors and takes 5 ns,
without writing. -/
def setStatus (code : Int) (errs : List Error) (w : World) : World :=
  { c := { w.c with Writer := w.c.Writer.WriteHeader code, Errors := w.c.Errors ++ errs },
    now := w.now + 5 }

/-- A downstream chain that records the errors and writes the body `ok`. -/
def writeOk (errs : List Error) (w : World) : World :=
  { w with c := { w.c with Writer := (w.c.Writer.Write sampleLib "ok").1,
                           Errors := w.c.Errors ++ errs } }

/-! ## Lemmas on the framework model -/

theorem WriteHeader_nonpos (w : ResponseWriter) (code : Int) (h : code ≤ 0) :
    w.WriteHeader code = w := by
  unfold ResponseWriter.WriteHeader
  have : ¬ (code > 0 ∧ w.status ≠ code) := by omega
  simp [this]

theorem writeContentType_frame (w : ResponseWriter) (value : List String) :
    (writeContentType w value).status = w.status ∧
    (writeContentType w value).size = w.size ∧
    (writeContentType w value).body = w.body ∧
    (writeContentType w value).sentStatus = w.sentStatus := by
  unfold writeContentType
  split <;> simp

theorem writeContentType_Written (w : ResponseWriter) (value : List String) :
    (writeContentType w value).Written = w.Written := by
  simp [ResponseWriter.Written, (writeContentType_frame w value).2.1]

theorem WriteHeaderNow_frame (w : ResponseWriter) :
    w.WriteHeaderNow.status = w.status ∧ w.WriteHeaderNow.body = w.body := by
  unfold ResponseWriter.WriteHeaderNow
  split <;> simp

theorem WriteHeaderNow_unwritten (w : ResponseWriter) (h : w.Written = false) :
    w.WriteHeaderNow = { w with size := 0, sentStatus := some w.status } := by
  simp [ResponseWriter.WriteHeaderNow, h]

theorem Write_status (lib : Lib) (w : ResponseWriter) (data : String) :
    (w.Write lib data).1.status = w.status := by
  unfold ResponseWriter.Write
  simp only []
  split <;> simp [(WriteHeaderNow_frame w).1]

theorem Write_accepted (lib : Lib) (w : ResponseWriter) (data : String)
    (h : w.Written = false) (ha : lib.httpWrite (some w.status) data = none) :
    (w.Write lib data).2 = none ∧
    (w.Write lib data).1.body = w.body ++ [data] ∧
    (w.Write lib data).1.Written = true := by
  have hn : (0 : Int) ≤ (data.utf8ByteSize : Int) := Int.natCast_nonneg _
  unfold ResponseWriter.Write
  rw [WriteHeaderNow_unwritten w h]
  simp only [ha, ResponseWriter.Written, noWritten, bne_iff_ne, ne_eq, true_and]
  omega

theorem WriteJSON_status (lib : Lib) (w : ResponseWriter) (obj : JSONData) :
    (WriteJSON lib w obj).1.status = w.status := by
  unfold WriteJSON
  simp only []
  split
  · exact (writeContentType_frame w jsonContentType).1
  · rw [Write_status]
    exact (writeContentType_frame w jsonContentType).1

theorem JSON_neg_one (lib : Lib) (c : Context) (obj : JSONData) :
    c.JSON lib (-1) obj =
      match WriteJSON lib c.Writer obj with
      | (w2, none) => { c with Writer := w2 }
      | (w2, some err) => (Context.Error { c with Writer := w2 } err).Abort := by
  have hb : bodyAllowedForStatus (-1) = true := by decide
  simp [Context.JSON, Context.Status, WriteHeader_nonpos, hb]

theorem JSON_neg_one_status (lib : Lib) (c : Context) (obj : JSONData) :
    (c.JSON lib (-1) obj).Writer.Status = c.Writer.Status := by
  rw [JSON_neg_one]
  have hs := WriteJSON_status lib c.Writer obj
  generalize WriteJSON lib c.Writer obj = r at hs
  obtain ⟨w2, err⟩ := r
  cases err <;> simpa [ResponseWriter.Status, Context.Error, Context.Abort] using hs

theorem JSON_neg_one_accepted (lib : Lib) (c : Context) (obj : JSONData) (bytes : String)
    (hw : c.Writer.Written = false)
    (hj : lib.jsonMarshal obj = Except.ok bytes)
    (ha : lib.httpWrite (some c.Writer.status) bytes = none) :
    (c.JSON lib (-1) obj).Writer.body = c.Writer.body ++ [bytes] ∧
    (c.JSON lib (-1) obj).Writer.Written = true ∧
    (c.JSON lib (-1) obj).Errors = c.Errors := by
  have hf := writeContentType_frame c.Writer jsonContentType
  have hw1 : (writeContentType c.Writer jsonContentType).Written = false := by
    rw [writeContentType_Written]; exact hw
  have ha1 : lib.httpWrite (some (writeContentType c.Writer jsonContentType).status) bytes = none := by
    rw [hf.1]; exact ha
  have hacc := Write_accepted lib (writeContentType c.Writer jsonContentType) bytes hw1 ha1
  have hW : WriteJSON lib c.Writer obj =
      (writeContentType c.Writer jsonContentType).Write lib bytes := by
    simp [WriteJSON, hj]
  rw [JSON_neg_one, hW]
  generalize (writeContentType c.Writer jsonContentType).Write lib bytes = r at hacc
  obtain ⟨w2, err⟩ := r
  obtain ⟨h1, h2, h3⟩ := hacc
  simp only at h1 h2 h3
  subst h1
  exact ⟨by simp only [h2, hf.2.2.1], h3, rfl⟩

theorem any_key_eq_isSome (h : H) (k : String) :
    h.any (fun p => p.1 == k) = (h.lookup k).isSome := by
  induction h with
  | nil => rfl
  | cons p rest ih =>
    obtain ⟨a, b⟩ := p
    by_cases hk : k = a
    · subst hk
      simp [List.lookup]
    · have h1 : (a == k) = false := by simpa using fun h => hk h.symm
      have h2 : (k == a) = false := by simpa using hk
      simp only [List.any_cons, List.lookup, h1, h2, Bool.false_or]
      exact ih

theorem lookup_map_set (h : H) (k q : String) (v : GoValue) :
    (h.map (fun p => if p.1 == k then (k, v) else p)).lookup q =
      if q = k then (if h.any (fun p => p.1 == k) then some v else none) else h.lookup q := by
  induction h with
  | nil => simp
  | cons p rest ih =>
    obtain ⟨a, b⟩ := p
    rw [List.map_cons, List.lookup_cons, ih, List.lookup_cons, List.any_cons]
    by_cases hak : a = k
    · subst hak
      by_cases hq : q = a
      · subst hq
        simp
      · have h2 : (q == a) = false := by simpa using hq
        simp [h2, hq]
    · have h1 : (a == k) = false := by simpa using hak
      by_cases hq : q = a
      · subst hq
        have hqk : ¬ q = k := hak
        simp [h1, hqk]
      · have h2 : (q == a) = false := by simpa using hq
        simp only [h1, h2, Bool.false_or, Bool.false_eq_true, if_false]

theorem lookup_set (h : H) (k q : String) (v : GoValue) :
    (H.set h k v).lookup q = if q = k then some v else h.lookup q := by
  unfold H.set
  by_cases ha : h.any (fun p => p.1 == k) = true
  · rw [if_pos ha, lookup_map_set]
    simp [ha]
  · rw [if_neg ha, List.lookup_append]
    have hn : h.lookup k = none := by
      have := any_key_eq_isSome h k
      rw [Bool.not_eq_true] at ha
      rw [ha] at this
      cases hl : h.lookup k with
      | none => rfl
      | some x => rw [hl] at this; simp at this
    by_cases hq : q = k
    · subst hq
      simp [hn, List.lookup]
    · have h2 : (q == k) = false := by simpa using hq
      simp [List.lookup, h2, hq]

theorem lookup_foldl_set (es : List (String × GoValue)) (acc : H) (q : String) :
    (es.foldl (fun a kv => H.set a kv.1 kv.2) acc).lookup q =
      (es.reverse.lookup q).or (acc.lookup q) := by
  induction es generalizing acc with
  | nil => simp [List.lookup]
  | cons kv rest ih =>
    obtain ⟨a, b⟩ := kv
    rw [List.foldl_cons, ih, lookup_set, List.reverse_cons, List.lookup_append]
    by_cases hq : q = a
    · subst hq
      cases rest.reverse.lookup q <;> simp [List.lookup]
    · have h2 : (q == a) = false := by simpa using hq
      cases rest.reverse.lookup q <;> simp [List.lookup, h2, hq]

theorem Error_JSON_struct (e : Error) (v : GoValue) (h : e.Meta = MetaValue.struct v) :
    e.JSON = ErrorJSON.meta v := by
  simp [Error.JSON, h]

theorem Error_JSON_nil (e : Error) (h : e.Meta = MetaValue.nil) :
    e.JSON = ErrorJSON.h [("error", GoValue.str e.Err)] := by
  simp [Error.JSON, h, H.set]

theorem Error_JSON_other (e : Error) (v : GoValue) (h : e.Meta = MetaValue.other v) :
    e.JSON = ErrorJSON.h [("meta", v), ("error", GoValue.str e.Err)] := by
  have hne : ("meta" == "error") = false := by decide
  simp [Error.JSON, h, H.set, hne]

theorem Error_JSON_map (e : Error) (es : List (String × GoValue))
    (h : e.Meta = MetaValue.map es) :
    ∃ m : H, e.JSON = ErrorJSON.h m ∧
      ∀ k : String, m.lookup k =
        if k = "error" then some ((es.reverse.lookup "error").getD (GoValue.str e.Err))
        else es.reverse.lookup k := by
  have hfold := lookup_foldl_set es [] 
  by_cases ha : (es.foldl (fun a kv => H.set a kv.1 kv.2) []).any (fun p => p.1 == "error") = true
  · refine ⟨es.foldl (fun a kv => H.set a kv.1 kv.2) [], by simp [Error.JSON, h, ha], ?_⟩
    intro k
    rw [hfold k]
    by_cases hk : k = "error"
    · subst hk
      rw [any_key_eq_isSome, hfold "error"] at ha
      cases hl : es.reverse.lookup "error" with
      | none => rw [hl] at ha; simp [List.lookup] at ha
      | some x => simp [List.lookup]
    · cases es.reverse.lookup k <;> simp [List.lookup, hk]
  · refine ⟨H.set (es.foldl (fun a kv => H.set a kv.1 kv.2) []) "error" (GoValue.str e.Err),
      by simp [Error.JSON, h, ha], ?_⟩
    intro k
    rw [lookup_set, hfold k]
    by_cases hk : k = "error"
    · subst hk
      rw [any_key_eq_isSome, hfold "error"] at ha
      cases hl : es.reverse.lookup "error" with
      | none => simp
      | some x => rw [hl] at ha; simp at ha
    · cases es.reverse.lookup k <;> simp [List.lookup, hk]

theorem ByType_eq_filter (a : List Error) (t : ErrorType) :
    errorMsgs.ByType a t = a.filter (Matches t) := by
  unfold errorMsgs.ByType
  by_cases h0 : a.length = 0
  · have : a = [] := List.length_eq_zero.mp h0
    simp [this]
  · by_cases hany : t = ErrorTypeAny
    · have hall : ∀ e ∈ a, Matches t e = true := by
        intro e _
        simp [Matches, hany]
      simp only [h0, hany, if_false, if_true]
      rw [hany] at hall
      exact (List.filter_eq_self.mpr hall).symm
    · have hfun : (fun msg : Error => msg.IsType t) = Matches t := by
        funext e
        simp [Matches, hany]
      simp only [h0, hany, if_false, hfun]

theorem Logger_world (lib : Lib) (next : World → World) (w : World) :
    (Logger lib next w).1 = next w := by
  unfold Logger
  simp only []
  split_ifs <;> rfl

theorem Logger_events (lib : Lib) (next : World → World) (w : World) :
    (Logger lib next w).2 =
      [Event.next,
       Event.log ⟨specSeverity (next w).c.Writer.Status, "[GIN]", expectedFields lib w.now (next w)⟩] := by
  unfold Logger specSeverity expectedFields
  simp only [ge_iff_le]
  split_ifs <;> rfl

/-! ## The request logger -/

/-- C1: when the status code read after the downstream chain has completed lies
in 400..499, the handler of `Logger` emits its entry at warning severity and no
entry at another severity, whatever the request, the clock and the accumulated
errors are. -/
theorem Logger_warn_on_4xx (lib : Lib) (next : World → World) (w : World)
    (h : 400 ≤ (next w).c.Writer.Status ∧ (next w).c.Writer.Status ≤ 499) :
    levels (Logger lib next w).2 = [Level.warn] := by
  rw [Logger_events]
  simp [levels, entries, specSeverity, h]

/-- The hypothesis of C1 holds for a downstream chain that answers 404. -/
theorem Logger_warn_on_4xx_witness :
    (400 ≤ (setStatus 404 [privateError] sampleWorld).c.Writer.Status ∧
      (setStatus 404 [privateError] sampleWorld).c.Writer.Status ≤ 499) ∧
    levels (Logger sampleLib (setStatus 404 [privateError]) sampleWorld).2 = [Level.warn] :=
  ⟨by decide, Logger_warn_on_4xx sampleLib (setStatus 404 [privateError]) sampleWorld (by decide)⟩

/-- C2: when the status code read after the downstream chain has completed is at
least 500, with no upper bound, the handler of `Logger` emits its entry at
error severity and no entry at another severity. -/
theorem Logger_error_on_5xx (lib : Lib) (next : World → World) (w : World)
    (h : 500 ≤ (next w).c.Writer.Status) :
    levels (Logger lib next w).2 = [Level.error] := by
  rw [Logger_events]
  have h1 : ¬ (400 ≤ (next w).c.Writer.Status ∧ (next w).c.Writer.Status ≤ 499) := by omega
  simp [levels, entries, specSeverity, h, h1]

/-- The hypothesis of C2 holds for a downstream chain that answers 1000. -/
theorem Logger_error_on_5xx_witness :
    500 ≤ (setStatus 1000 [] sampleWorld).c.Writer.Status ∧
    levels (Logger sampleLib (setStatus 1000 []) sampleWorld).2 = [Level.error] :=
  ⟨by decide, Logger_error_on_5xx sampleLib (setStatus 1000 []) sampleWorld (by decide)⟩

/-- C3: when the status code is at most 399 (so neither in 400..499 nor at least
500), the handler of `Logger` emits its entry at info severity, whatever the
accumulated errors are; and for every run the handler emits exactly one entry,
whose severity is the one the specification assigns to the status code, a
function of the status code alone. -/
theorem Logger_info_otherwise (lib : Lib) (next : World → World) (w : World)
    (h : (next w).c.Writer.Status ≤ 399) :
    levels (Logger lib next w).2 = [Level.info] ∧
    ∀ (lib2 : Lib) (next2 : World → World) (w2 : World),
      levels (Logger lib2 next2 w2).2 = [specSeverity (next2 w2).c.Writer.Status] := by
  constructor
  · rw [Logger_events]
    have h1 : ¬ (400 ≤ (next w).c.Writer.Status ∧ (next w).c.Writer.Status ≤ 499) := by omega
    have h2 : ¬ (500 ≤ (next w).c.Writer.Status) := by omega
    simp [levels, entries, specSeverity, h1, h2]
  · intro lib2 next2 w2
    rw [Logger_events]
    simp [levels, entries]

/-- The hypothesis of C3 holds for a downstream chain that answers 302 with an error. -/
theorem Logger_info_otherwise_witness :
    (setStatus 302 [privateError] sampleWorld).c.Writer.Status ≤ 399 ∧
    (levels (Logger sampleLib (setStatus 302 [privateError]) sampleWorld).2 = [Level.info] ∧
      ∀ (lib2 : Lib) (next2 : World → World) (w2 : World),
        levels (Logger lib2 next2 w2).2 = [specSeverity (next2 w2).c.Writer.Status]) :=
  ⟨by decide, Logger_info_otherwise sampleLib (setStatus 302 [privateError]) sampleWorld (by decide)⟩

/-- C4: for every request and every status code, the one entry the handler of
`Logger` emits has the message `[GIN]` and exactly the six fields statusCode,
latency, clientIP, method, path, error, in that order, with the values read
after the downstream chain has completed; message and fields are the same in
all three severity branches. -/
theorem Logger_entry_fields (lib : Lib) (next : World → World) (w : World) :
    (entries (Logger lib next w).2).map (fun e => (e.msg, e.fields)) =
      [("[GIN]",
        [Field.int "statusCode" (next w).c.Writer.Status,
         Field.string "latency" (lib.durationString ((next w).now - w.now)),
         Field.string "clientIP" (next w).c.ClientIP,
         Field.string "method" (next w).c.Request.Method,
         Field.string "path" (next w).c.Request.Path,
         Field.string "error" (errorMsgs.String lib (next w).c.Errors)])] ∧
    (entries (Logger lib next w).2).map (fun e => e.fields.map Field.key) =
      [["statusCode", "latency", "clientIP", "method", "path", "error"]] := by
  rw [Logger_events]
  exact ⟨rfl, rfl⟩

/-- C5: for every request, the handler of `Logger` calls the downstream chain
exactly once and then the logger exactly once, in this order, and does nothing
else to the world; the status code and the error string of the entry are the
ones the downstream chain left. -/
theorem Logger_next_once_then_one_entry (lib : Lib) (next : World → World) (w : World) :
    (Logger lib next w).1 = next w ∧
    ∃ e : Entry,
      (Logger lib next w).2 = [Event.next, Event.log e] ∧
      e.fields.filter (fun f => f.key == "statusCode") =
        [Field.int "statusCode" (next w).c.Writer.Status] ∧
      e.fields.filter (fun f => f.key == "error") =
        [Field.string "error" (errorMsgs.String lib (next w).c.Errors)] := by
  refine ⟨Logger_world lib next w, ?_⟩
  rw [Logger_events]
  refine ⟨_, rfl, ?_, ?_⟩
  · simp [expectedFields, Field.key, List.filter]
  · simp [expectedFields, Field.key, List.filter]

/-! ## The error reporter -/

/-- C6: when the response has already been written at the time the downstream
chain completes, the handlers of `ErrorLoggerT t`, for every filter `t`, and of
`ErrorLogger` leave the world exactly as downstream left it, whatever the
accumulated errors are: body, status and headers are untouched. -/
theorem ErrorLoggerT_written_noop (lib : Lib) (t : ErrorType) (next : World → World) (w : World)
    (h : (next w).c.Writer.Written = true) :
    ErrorLoggerT lib t next w = next w ∧ ErrorLogger lib next w = next w := by
  simp [ErrorLogger, ErrorLoggerT, h]

/-- The hypothesis of C6 holds for a downstream chain that writes a body and records an error. -/
theorem ErrorLoggerT_written_noop_witness :
    (writeOk [privateError] sampleWorld).c.Writer.Written = true ∧
    (ErrorLoggerT sampleLib ErrorTypePrivate (writeOk [privateError]) sampleWorld =
        writeOk [privateError] sampleWorld ∧
      ErrorLogger sampleLib (writeOk [privateError]) sampleWorld =
        writeOk [privateError] sampleWorld) :=
  ⟨by decide,
   ErrorLoggerT_written_noop sampleLib ErrorTypePrivate (writeOk [privateError]) sampleWorld
     (by decide)⟩

/-- C7, as stated, fails: with the response unwritten and exactly one matching
error, the handler of `ErrorLoggerT` writes no body when the JSON encoder
rejects the error (its meta data is a channel; the response stays unwritten),
and none when the underlying writer refuses a body (the status downstream set
is 204). -/
theorem ErrorLoggerT_one_match_render_fails :
    ((setStatus 500 [chanError] sampleWorld).c.Writer.Written = false ∧
      (setStatus 500 [chanError] sampleWorld).c.Errors.filter (Matches ErrorTypePrivate) =
        [chanError] ∧
      (ErrorLoggerT sampleLib ErrorTypePrivate (setStatus 500 [chanError])
        sampleWorld).c.Writer.body = [] ∧
      (ErrorLoggerT sampleLib ErrorTypePrivate (setStatus 500 [chanError])
        sampleWorld).c.Writer.Written = false) ∧
    ((setStatus 204 [privateError] sampleWorld).c.Writer.Written = false ∧
      (setStatus 204 [privateError] sampleWorld).c.Errors.filter (Matches ErrorTypeAny) =
        [privateError] ∧
      (ErrorLogger sampleLib (setStatus 204 [privateError]) sampleWorld).c.Writer.body = []) := by
  refine ⟨⟨?_, ?_, ?_, ?_⟩, ?_, ?_, ?_⟩ <;> decide

/-- C7, amended: when the response is unwritten at the time the downstream chain
completes, exactly one accumulated error `e` matches the filter `t`, the JSON
encoder accepts the JSON form of `e` and the underlying writer accepts the
bytes for the status that is set, the handler of `ErrorLoggerT t` writes
exactly one chunk to the body, the encoding of the JSON form of `e` alone, the
response is written afterwards and the error list is unchanged.  The JSON form
of `e` is its meta data when that is a struct, and otherwise a map that holds
the entries of the meta data and, under the key `error`, the message of `e`
unless the meta data has that key.  The handler of `ErrorLogger` is the one of
`ErrorLoggerT` at `ErrorTypeAny`, which every error matches. -/
theorem ErrorLoggerT_one_match_rendered (lib : Lib) (t : ErrorType) (next : World → World)
    (w : World) (e : Error) (bytes : String)
    (hw : (next w).c.Writer.Written = false)
    (hm : (next w).c.Errors.filter (Matches t) = [e])
    (hj : lib.jsonMarshal (JSONData.one e.JSON) = Except.ok bytes)
    (ha : lib.httpWrite (some (next w).c.Writer.Status) bytes = none) :
    ((ErrorLoggerT lib t next w).c.Writer.body = (next w).c.Writer.body ++ [bytes] ∧
      (ErrorLoggerT lib t next w).c.Writer.Written = true ∧
      (ErrorLoggerT lib t next w).c.Errors = (next w).c.Errors) ∧
    ((∀ v : GoValue, e.Meta = MetaValue.struct v → e.JSON = ErrorJSON.meta v) ∧
      (e.Meta = MetaValue.nil → e.JSON = ErrorJSON.h [("error", GoValue.str e.Err)]) ∧
      (∀ v : GoValue, e.Meta = MetaValue.other v →
        e.JSON = ErrorJSON.h [("meta", v), ("error", GoValue.str e.Err)]) ∧
      (∀ es : List (String × GoValue), e.Meta = MetaValue.map es →
        ∃ m : H, e.JSON = ErrorJSON.h m ∧
          ∀ k : String, m.lookup k =
            if k = "error" then some ((es.reverse.lookup "error").getD (GoValue.str e.Err))
            else es.reverse.lookup k)) ∧
    (ErrorLogger lib next w = ErrorLoggerT lib ErrorTypeAny next w ∧
      ∀ e2 : Error, Matches ErrorTypeAny e2 = true) := by
  have hjs : errorMsgs.JSON (errorMsgs.ByType (next w).c.Errors t) = some (JSONData.one e.JSON) := by
    rw [ByType_eq_filter, hm]
    rfl
  have hr : (ErrorLoggerT lib t next w).c = (next w).c.JSON lib (-1) (JSONData.one e.JSON) := by
    simp [ErrorLoggerT, hw, hjs]
  refine ⟨?_, ⟨Error_JSON_struct e, Error_JSON_nil e, Error_JSON_other e, Error_JSON_map e⟩,
    rfl, ?_⟩
  · rw [hr]
    exact JSON_neg_one_accepted lib (next w).c _ bytes hw hj ha
  · intro e2
    simp [Matches]

/-- The hypotheses of the amended C7 hold for a private and a public error under
the public filter, with status 500. -/
theorem ErrorLoggerT_one_match_rendered_witness :
    ((setStatus 500 [privateError, publicError] sampleWorld).c.Writer.Written = false ∧
      (setStatus 500 [privateError, publicError] sampleWorld).c.Errors.filter
        (Matches ErrorTypePublic) = [publicError] ∧
      sampleLib.jsonMarshal (JSONData.one publicError.JSON) = Except.ok "json" ∧
      sampleLib.httpWrite
        (some (setStatus 500 [privateError, publicError] sampleWorld).c.Writer.Status)
        "json" = none) ∧
    ((ErrorLoggerT sampleLib ErrorTypePublic (setStatus 500 [privateError, publicError])
        sampleWorld).c.Writer.body =
      (setStatus 500 [privateError, publicError] sampleWorld).c.Writer.body ++ ["json"] ∧
     (ErrorLoggerT sampleLib ErrorTypePublic (setStatus 500 [privateError, publicError])
        sampleWorld).c.Writer.Written = true ∧
     (ErrorLoggerT sampleLib ErrorTypePublic (setStatus 500 [privateError, publicError])
        sampleWorld).c.Errors =
      (setStatus 500 [privateError, publicError] sampleWorld).c.Errors) :=
  ⟨⟨by decide, by decide, rfl, rfl⟩,
   (ErrorLoggerT_one_match_rendered sampleLib ErrorTypePublic
     (setStatus 500 [privateError, publicError]) sampleWorld publicError "json"
     (by decide) (by decide) rfl rfl).1⟩

/-- C8: when the response is unwritten at the time the downstream chain completes
and no accumulated error matches the filter `t` (the list is empty, or every
error in it is filtered out), the handler of `ErrorLoggerT t` leaves the world
exactly as downstream left it: no body, the same status, still unwritten. -/
theorem ErrorLoggerT_no_match_noop (lib : Lib) (t : ErrorType) (next : World → World) (w : World)
    (hw : (next w).c.Writer.Written = false)
    (hm : ∀ e ∈ (next w).c.Errors, Matches t e = false) :
    ErrorLoggerT lib t next w = next w ∧
    (ErrorLoggerT lib t next w).c.Writer.Written = false := by
  have hf : (next w).c.Errors.filter (Matches t) = [] := by
    rw [List.filter_eq_nil_iff]
    intro a ha
    simp [hm a ha]
  have hj : errorMsgs.JSON (errorMsgs.ByType (next w).c.Errors t) = none := by
    rw [ByType_eq_filter, hf]
    rfl
  have hr : ErrorLoggerT lib t next w = next w := by
    simp [ErrorLoggerT, hw, hj]
  exact ⟨hr, by rw [hr]; exact hw⟩

/-- The hypotheses of C8 hold for a private error under the public filter. -/
theorem ErrorLoggerT_no_match_noop_witness :
    ((setStatus 500 [privateError] sampleWorld).c.Writer.Written = false ∧
      ∀ e ∈ (setStatus 500 [privateError] sampleWorld).c.Errors,
        Matches ErrorTypePublic e = false) ∧
    (ErrorLoggerT sampleLib ErrorTypePublic (setStatus 500 [privateError]) sampleWorld =
        setStatus 500 [privateError] sampleWorld ∧
      (ErrorLoggerT sampleLib ErrorTypePublic (setStatus 500 [privateError])
        sampleWorld).c.Writer.Written = false) :=
  ⟨⟨by decide, by decide⟩,
   ErrorLoggerT_no_match_noop sampleLib ErrorTypePublic (setStatus 500 [privateError]) sampleWorld
     (by decide) (by decide)⟩

/-- C9: the handler of `ErrorLoggerT t` either leaves the world as downstream left
it or renders a JSON body with the status argument -1, and in both cases the
status code of the response afterwards is the one the downstream chain left. -/
theorem ErrorLoggerT_status_kept (lib : Lib) (t : ErrorType) (next : World → World) (w : World) :
    (ErrorLoggerT lib t next w).c.Writer.Status = (next w).c.Writer.Status ∧
    (ErrorLoggerT lib t next w = next w ∨
      ∃ obj : JSONData,
        ErrorLoggerT lib t next w = { next w with c := (next w).c.JSON lib (-1) obj }) := by
  unfold ErrorLoggerT
  simp only []
  split_ifs with hw
  · split
    · next obj _ =>
      exact ⟨JSON_neg_one_status lib (next w).c obj, Or.inr ⟨obj, rfl⟩⟩
    · exact ⟨rfl, Or.inl rfl⟩
  · exact ⟨rfl, Or.inl rfl⟩

end GinZap
